import Mathlib

/-!
Verification development for the icetea transaction-execution core.

The definitions below are a shallow embedding of the JavaScript sources:

* `src/unnamed/part_000` — the `system.election` contract
  (`propose` / `resign` / `vote` / `getCandidates` / `getValidators` /
  `punish` and the private helpers `_getCandidates`, `_populateCapacity`,
  `_getValidators`, `_addToWithdrawList`, `_rawWithdrawList`);
* `src/icetea/vm/index.js` (second unit) — the `gate` oracle contract
  (`request`, `setResult`);
* `src/icetea/vm/js/Context.js` — the message object handed to `@view`
  contract code (`contextForView`);
* `src/icetea/app.js` — the transaction pipeline (`checkTx`, `execTx`,
  `willCallContract`, `doExecTx`).

JavaScript objects used as insertion-ordered dictionaries are embedded as
association lists `List (String × α)`; `BigInt` and integral `number`
values are embedded as `Int` (with `Int.tdiv` for `BigInt` division, which
truncates toward zero exactly as JavaScript `/` on `BigInt`); a thrown
exception is an `Except.error` carrying the message.  Collaborators that
live outside the analysed sources (signature check, alias resolution, DID
permission check, the contract invoker, the state-manager transfer
routine) are abstract parameters or are modelled from the specification,
as indicated in their doc comments.
-/

namespace Icetea

/-! ## Association-list embedding of JavaScript objects -/

/-- Lookup in an insertion-ordered dictionary (JS property read `o[k]`,
`undefined` embedded as `none`). -/
def lookupA {κ α : Type} [DecidableEq κ] (l : List (κ × α)) (k : κ) : Option α :=
  match l with
  | [] => none
  | (k2, v) :: t => if k2 = k then some v else lookupA t k

/-- Property write `o[k] = v`: overwrite in place when the key exists
(keeping its position), otherwise append, as JS insertion order does. -/
def setA {κ α : Type} [DecidableEq κ] (l : List (κ × α)) (k : κ) (v : α) : List (κ × α) :=
  match l with
  | [] => [(k, v)]
  | (k2, v2) :: t => if k2 = k then (k, v) :: t else (k2, v2) :: setA t k v

/-- Property deletion `delete o[k]`.  JS object keys are unique, so
removing every occurrence of the key is the same as removing the one
property. -/
def eraseA {κ α : Type} [DecidableEq κ] (l : List (κ × α)) (k : κ) : List (κ × α) :=
  match l with
  | [] => []
  | (k2, v2) :: t => if k2 = k then eraseA t k else (k2, v2) :: eraseA t k

theorem lookupA_setA_self {κ α : Type} [DecidableEq κ] (l : List (κ × α)) (k : κ) (v : α) :
    lookupA (setA l k v) k = some v := by
  induction l with
  | nil => simp [setA, lookupA]
  | cons h t ih =>
      obtain ⟨k2, v2⟩ := h
      by_cases hk : k2 = k
      · simp [setA, hk, lookupA]
      · simp [setA, hk, lookupA, ih]

theorem lookupA_setA_ne {κ α : Type} [DecidableEq κ] (l : List (κ × α)) (k k2 : κ) (v : α)
    (h : k ≠ k2) : lookupA (setA l k v) k2 = lookupA l k2 := by
  induction l with
  | nil => simp [setA, lookupA, h]
  | cons hd t ih =>
      obtain ⟨k3, v3⟩ := hd
      by_cases hk : k3 = k
      · subst hk
        simp [setA, lookupA, h]
      · simp [setA, hk, lookupA, ih]

theorem lookupA_eraseA_self {κ α : Type} [DecidableEq κ] (l : List (κ × α)) (k : κ) :
    lookupA (eraseA l k) k = none := by
  induction l with
  | nil => simp [eraseA, lookupA]
  | cons hd t ih =>
      obtain ⟨k2, v2⟩ := hd
      by_cases hk : k2 = k
      · simp [eraseA, hk, ih]
      · simp [eraseA, hk, lookupA, ih]

theorem lookupA_eraseA_ne {κ α : Type} [DecidableEq κ] (l : List (κ × α)) (k k2 : κ)
    (h : k ≠ k2) : lookupA (eraseA l k) k2 = lookupA l k2 := by
  induction l with
  | nil => simp [eraseA]
  | cons hd t ih =>
      obtain ⟨k3, v3⟩ := hd
      by_cases hk : k3 = k
      · subst hk
        simp [eraseA, lookupA, h, ih]
      · simp [eraseA, hk, lookupA, ih]

/-! ## Election contract (`src/unnamed/part_000`) -/

/-- One validator candidate record (data model of the `candidates` storage
key).  Optional JS fields (`voters`, `jailed`, `jailedUntilBlock`,
`slashed`) are embedded with their effective defaults: the source reads
them with `|| BigInt(0)` / truthiness guards. -/
structure Candidate where
  deposit : Int
  block : Int
  operator : String
  name : String
  voters : List (String × Int)
  jailed : Bool
  jailedUntilBlock : Option Int
  slashed : Int
  deriving Repr, DecidableEq

def MILLION : Int := 1000000

/-- The slash amount computed at `part_000:327`:
`candidate.deposit * N_MILLION / BigInt(slashedRatePerMillion)` —
`BigInt` division truncates toward zero, hence `Int.tdiv`. -/
def slashedAmountOf (deposit rate : Int) : Int :=
  Int.tdiv (deposit * MILLION) rate

/-- Parameter validation of `punish` (`part_000:304-315`).  The
`typeof`/`Number.isInteger` checks are absorbed by the `Int` type; the
range and zero checks are literal. -/
def validatePunishParams (slashedRatePerMillion jailedBlockCount : Int) :
    Except String Unit :=
  if slashedRatePerMillion < 0 ∨ MILLION < slashedRatePerMillion then
    .error "Invalid slashedRatePerMillion. slashedRatePerMillion must be a number between 0 and 1."
  else if jailedBlockCount < 0 then
    .error "Invalid jailedBlockCount. jailedBlockCount must be a positive integer."
  else if slashedRatePerMillion = 0 ∨ jailedBlockCount = 0 then
    .error "Either slashedRate or jailedBlockCount must be specified."
  else
    .ok ()

/-- Slashing step of `punish` (`part_000:325-330`). -/
def punishSlash (c : Candidate) (slashedRatePerMillion : Int) : Candidate :=
  if 0 < slashedRatePerMillion then
    let slashedAmount := slashedAmountOf c.deposit slashedRatePerMillion
    { c with slashed := c.slashed + slashedAmount, deposit := c.deposit - slashedAmount }
  else c

/-- Jailing step of `punish` (`part_000:332-337`).  The source guard
`candidate.jailedUntilBlock && candidate.jailedUntilBlock > blockNum`
tests JS truthiness first, so a stored `0` is treated like an absent
value. -/
def punishJail (c : Candidate) (blockNum jailedBlockCount : Int) : Candidate :=
  if 0 < jailedBlockCount then
    let pendingJailedBlock : Int :=
      match c.jailedUntilBlock with
      | some j => if j ≠ 0 ∧ blockNum < j then j - blockNum else 0
      | none => 0
    { c with jailed := true,
             jailedUntilBlock := some (blockNum + pendingJailedBlock + jailedBlockCount) }
  else c

/-- `exports.punish` (`part_000:301-349`) acting on the `candidates`
storage object. -/
def punish (candidates : List (String × Candidate)) (pubkey : String)
    (blockNum slashedRatePerMillion jailedBlockCount : Int) :
    Except String (List (String × Candidate)) :=
  match validatePunishParams slashedRatePerMillion jailedBlockCount with
  | .error e => .error e
  | .ok _ =>
    match lookupA candidates pubkey with
    | none => .error ("Validator " ++ pubkey ++ " not found. Cannot punish.")
    | some candidate =>
      let candidate := punishSlash candidate slashedRatePerMillion
      let candidate := punishJail candidate blockNum jailedBlockCount
      .ok (setA candidates pubkey candidate)

/-- The election contract's storage slice: the `candidates` and
`withdraw` keys (`getState` with default `{}`; `none` models a key that
holds JS `undefined`). -/
structure ElectionContext where
  candidates : List (String × Candidate)
  withdraw : Option (List (String × List (Int × Int)))
  deriving Repr, DecidableEq

/-- `_rawWithdrawList = c => c.getState(WITHDRAW_KEY, {})`
(`part_000:14`).  The parameter is an `Option` because the call site in
`resign` (`part_000:164`) passes no argument at all: reading
`.getState` off `undefined` is a `TypeError`. -/
def _rawWithdrawList (c : Option ElectionContext) :
    Except String (List (String × List (Int × Int))) :=
  match c with
  | none => .error "TypeError: Cannot read property getState of undefined"
  | some ctx => .ok (ctx.withdraw.getD [])

/-- `_addToWithdrawList` (`part_000:271-274`): accumulate `amount` under
`withdrawList[pubkey][unlockBlock]`. -/
def _addToWithdrawList (withdrawList : List (String × List (Int × Int)))
    (pubkey : String) (amount unlockBlock : Int) :
    List (String × List (Int × Int)) :=
  let w := (lookupA withdrawList pubkey).getD []
  let prev := (lookupA w unlockBlock).getD 0
  setA withdrawList pubkey (setA w unlockBlock (prev + amount))

/-- `resign` (`part_000:151-183`).  `permissionOk` abstracts the external
`Did.checkPermission` collaborator.  Two behaviours of the source are
kept verbatim: `_rawWithdrawList` is invoked without its context argument
(line 164), and the final `context.setState(WITHDRAW_KEY)` (line 182)
passes no value, i.e. stores `undefined`. -/
def resign (ctx : ElectionContext) (blockNumber : Int)
    (permissionOk : String → Bool) (pubkey : String) :
    Except String ElectionContext :=
  let candidates := ctx.candidates
  match lookupA candidates pubkey with
  | none =>
      -- `throw new (`Validator candidate ... not found.`)()` calls a string
      -- as a constructor, itself a TypeError.
      .error "TypeError: string is not a constructor"
  | some me =>
    if ¬ permissionOk me.operator then .error "Permission denied" else
    match _rawWithdrawList none with -- source slip: the context argument is missing
    | .error e => .error e
    | .ok withdrawList =>
        -- `part_000:166-182`, unreachable because of the error above
        let validatorWithdrawLockNumOfBlock : Int := 10
        let wl := _addToWithdrawList withdrawList pubkey me.deposit
          (blockNumber + validatorWithdrawLockNumOfBlock)
        let voterWithdrawLockNumOfBlock : Int := 1
        let wl := me.voters.foldl
          (fun acc pv => _addToWithdrawList acc pv.1 pv.2
            (blockNumber + voterWithdrawLockNumOfBlock)) wl
        let candidates := eraseA candidates pubkey
        -- `context.setState(WITHDRAW_KEY)` stores undefined, dropping `wl`
        let _ := wl
        .ok { candidates := candidates, withdraw := none }

/-- Output row of `_getCandidates` (`part_000:224-239`): a deep clone of
the candidate with the `pubKey` wrapper attached, later extended with a
`capacity` field by `_populateCapacity` (initially absent, embedded as
`0` until populated, which always happens before the field is read). -/
structure CandidateInfo where
  pubKeyData : String
  deposit : Int
  block : Int
  voters : List (String × Int)
  jailed : Bool
  capacity : Int
  deriving Repr, DecidableEq

/-- `_getCandidates` (`part_000:224-239`): keep candidates that are not
jailed (unless `includeJailed`), in insertion order. -/
def _getCandidates (candidates : List (String × Candidate)) (includeJailed : Bool) :
    List CandidateInfo :=
  (candidates.filter (fun kv => includeJailed || !kv.2.jailed)).map
    (fun kv =>
      { pubKeyData := kv.1
        deposit := kv.2.deposit
        block := kv.2.block
        voters := kv.2.voters
        jailed := kv.2.jailed
        capacity := 0 })

/-- Capacity of one candidate (`part_000:242-247`):
`deposit + Σ voters`. -/
def capacityOf (c : CandidateInfo) : Int :=
  c.deposit + (c.voters.map Prod.snd).foldl (fun v sum => v + sum) 0

/-- Strict "must sort earlier" relation of
`_.orderBy(candidates, ['capacity', 'block'], ['desc', 'asc'])`
(`part_000:253`): larger capacity first, equal capacities broken by
smaller registration block. -/
def candBefore (a b : CandidateInfo) : Prop :=
  b.capacity < a.capacity ∨ (a.capacity = b.capacity ∧ a.block < b.block)

instance : DecidableRel candBefore := fun a b => by
  unfold candBefore; exact inferInstance

/-- Non-strict companion of `candBefore`; `List.insertionSort` along this
relation is the stable sort `_.orderBy` performs. -/
def candNotAfter (a b : CandidateInfo) : Prop := ¬ candBefore b a

instance : DecidableRel candNotAfter := fun a b => by
  unfold candNotAfter; exact inferInstance

theorem candNotAfter_iff (a b : CandidateInfo) :
    candNotAfter a b ↔
      b.capacity < a.capacity ∨ (a.capacity = b.capacity ∧ a.block ≤ b.block) := by
  unfold candNotAfter candBefore
  constructor
  · intro h
    rcases lt_trichotomy a.capacity b.capacity with hc | hc | hc
    · exact absurd (Or.inl hc) h
    · refine Or.inr ⟨hc, ?_⟩
      by_contra hb
      exact h (Or.inr ⟨hc.symm, by omega⟩)
    · exact Or.inl hc
  · intro h hcontra
    rcases h with h | ⟨hc, hb⟩
    · rcases hcontra with h2 | ⟨h2, _⟩ <;> omega
    · rcases hcontra with h2 | ⟨h2, hb2⟩ <;> omega

instance : IsTotal CandidateInfo candNotAfter := by
  refine ⟨fun a b => ?_⟩
  rw [candNotAfter_iff, candNotAfter_iff]
  omega

instance : IsTrans CandidateInfo candNotAfter := by
  refine ⟨fun a b c hab hbc => ?_⟩
  rw [candNotAfter_iff] at *
  omega

/-- `_populateCapacity` (`part_000:241-257`): compute every capacity and,
when `sorted`, stably sort by capacity descending then block
ascending. -/
def _populateCapacity (candidates : List CandidateInfo) (sorted : Bool) :
    List CandidateInfo :=
  let candidates := candidates.map (fun c => { c with capacity := capacityOf c })
  if sorted then List.insertionSort candNotAfter candidates else candidates

/-- `_getValidators` (`part_000:259-269`): re-populate capacities, sort,
and truncate to the configured maximum set size. -/
def _getValidators (numberOfValidators : Nat) (candidates : List CandidateInfo) :
    List CandidateInfo :=
  (_populateCapacity candidates true).take numberOfValidators

/-- The contract's `getCandidates` view (`part_000:185-187`), with the
default `includeJailed = false`. -/
def getCandidatesView (candidates : List (String × Candidate)) : List CandidateInfo :=
  _populateCapacity (_getCandidates candidates false) true

/-- The contract's `getValidators` view (`part_000:189-191`). -/
def getValidatorsView (numberOfValidators : Nat)
    (candidates : List (String × Candidate)) : List CandidateInfo :=
  _getValidators numberOfValidators (getCandidatesView candidates)

/-! ## Lemmas about `punish` -/

theorem punishJail_deposit (c : Candidate) (b j : Int) :
    (punishJail c b j).deposit = c.deposit := by
  unfold punishJail; split <;> rfl

theorem punishJail_slashed (c : Candidate) (b j : Int) :
    (punishJail c b j).slashed = c.slashed := by
  unfold punishJail; split <;> rfl

theorem punishSlash_jailedUntilBlock (c : Candidate) (r : Int) :
    (punishSlash c r).jailedUntilBlock = c.jailedUntilBlock := by
  unfold punishSlash; split <;> rfl

theorem slashedAmountOf_antitone (d r1 r2 : Int) (hd : 0 ≤ d) (h1 : 0 < r1)
    (h12 : r1 ≤ r2) : slashedAmountOf d r2 ≤ slashedAmountOf d r1 := by
  have h2 : 0 < r2 := lt_of_lt_of_le h1 h12
  have hdm : 0 ≤ d * MILLION := mul_nonneg hd (by norm_num [MILLION])
  unfold slashedAmountOf
  rw [Int.tdiv_eq_ediv hdm (le_of_lt h1), Int.tdiv_eq_ediv hdm (le_of_lt h2)]
  obtain ⟨m, hm⟩ := Int.eq_ofNat_of_zero_le hdm
  obtain ⟨n1, hn1⟩ := Int.eq_ofNat_of_zero_le (le_of_lt h1)
  obtain ⟨n2, hn2⟩ := Int.eq_ofNat_of_zero_le (le_of_lt h2)
  subst hn1 hn2
  rw [hm, ← Int.natCast_div, ← Int.natCast_div]
  exact_mod_cast Nat.div_le_div_left (by exact_mod_cast h12) (by exact_mod_cast h1)

theorem punish_ok_inv (cands : List (String × Candidate)) (pk : String)
    (bn r j : Int) (res : List (String × Candidate)) (c : Candidate)
    (hc : lookupA cands pk = some c)
    (hok : punish cands pk bn r j = .ok res) :
    res = setA cands pk (punishJail (punishSlash c r) bn j) := by
  unfold punish at hok
  cases hval : validatePunishParams r j with
  | error e => rw [hval] at hok; exact absurd hok (by simp)
  | ok u => rw [hval, hc] at hok; cases hok; rfl

/-! ## Claim theorems for `punish` (C4, C5, C6) -/

/-- Claim C4: for every successful `punish` call with
`slashedRatePerMillion > 0` on an existing candidate, the slashed amount
equals `deposit * 1000000 / slashedRatePerMillion` in exact integer
(BigInt) arithmetic; this amount is subtracted from the candidate's
deposit and added to its accumulated slashed total, and for a fixed
non-negative deposit a smaller configured rate produces a larger (or
equal, under truncation) slash amount. -/
theorem punish_slash_exact (cands : List (String × Candidate)) (pk : String)
    (bn rate jbc : Int) (c : Candidate) (res : List (String × Candidate))
    (hc : lookupA cands pk = some c) (hrate : 0 < rate)
    (hok : punish cands pk bn rate jbc = .ok res) :
    (∃ c2, lookupA res pk = some c2 ∧
      c2.slashed = c.slashed + slashedAmountOf c.deposit rate ∧
      c2.deposit = c.deposit - slashedAmountOf c.deposit rate) ∧
    (∀ d r1 r2 : Int, 0 ≤ d → 0 < r1 → r1 ≤ r2 →
      slashedAmountOf d r2 ≤ slashedAmountOf d r1) := by
  constructor
  · have hres := punish_ok_inv cands pk bn rate jbc res c hc hok
    refine ⟨punishJail (punishSlash c rate) bn jbc, ?_, ?_, ?_⟩
    · rw [hres]; exact lookupA_setA_self _ _ _
    · rw [punishJail_slashed]
      unfold punishSlash
      rw [if_pos hrate]
    · rw [punishJail_deposit]
      unfold punishSlash
      rw [if_pos hrate]
  · exact fun d r1 r2 hd h1 h12 => slashedAmountOf_antitone d r1 r2 hd h1 h12

/-- Sample candidate storage used by the concrete witnesses. -/
def sampleCand : Candidate :=
  { deposit := 1000, block := 3, operator := "op1", name := "V1",
    voters := [("voter1", 50)], jailed := false,
    jailedUntilBlock := none, slashed := 0 }

def sampleCands : List (String × Candidate) := [("pk1", sampleCand)]

theorem punish_slash_exact_witness :
    lookupA sampleCands "pk1" = some sampleCand ∧ (0 : Int) < 500000 ∧
    punish sampleCands "pk1" 100 500000 7 =
      .ok (setA sampleCands "pk1"
        (punishJail (punishSlash sampleCand 500000) 100 7)) ∧
    ((∃ c2, lookupA (setA sampleCands "pk1"
        (punishJail (punishSlash sampleCand 500000) 100 7)) "pk1" = some c2 ∧
      c2.slashed = sampleCand.slashed + slashedAmountOf sampleCand.deposit 500000 ∧
      c2.deposit = sampleCand.deposit - slashedAmountOf sampleCand.deposit 500000) ∧
    (∀ d r1 r2 : Int, 0 ≤ d → 0 < r1 → r1 ≤ r2 →
      slashedAmountOf d r2 ≤ slashedAmountOf d r1)) :=
  ⟨rfl, by decide, rfl,
   punish_slash_exact sampleCands "pk1" 100 500000 7 sampleCand _ rfl (by decide)
     rfl⟩

/-- Claim C5 (counter-evidence, code bug): the source rejects a `punish`
call whose parameters are well-formed, in range and have one of them
nonzero — `slashedRatePerMillion = 0`, `jailedBlockCount = 5` — with the
very message claiming that "either" parameter suffices
(`part_000:313-315` uses `||` where the intent is `&&`). -/
theorem punish_zero_rate_rejected :
    punish sampleCands "pk1" 100 0 5 =
      .error "Either slashedRate or jailedBlockCount must be specified." ∧
    punish sampleCands "pk1" 100 300000 0 =
      .error "Either slashedRate or jailedBlockCount must be specified." := by
  constructor <;> rfl

/-- Claim C6: a successful `punish` with `jailedBlockCount > 0` extends a
still-pending jail period by exactly `jailedBlockCount` on top of the
remainder, and otherwise jails until `blockNum + jailedBlockCount`. -/
theorem punish_jail_extends (cands : List (String × Candidate)) (pk : String)
    (bn rate jbc : Int) (c : Candidate) (res : List (String × Candidate))
    (hc : lookupA cands pk = some c) (hjbc : 0 < jbc) (hbn : 0 ≤ bn)
    (hok : punish cands pk bn rate jbc = .ok res) :
    ∃ c2, lookupA res pk = some c2 ∧ c2.jailed = true ∧
      c2.jailedUntilBlock = some
        (match c.jailedUntilBlock with
          | some j => if bn < j then bn + (j - bn) + jbc else bn + jbc
          | none => bn + jbc) := by
  have hres := punish_ok_inv cands pk bn rate jbc res c hc hok
  refine ⟨punishJail (punishSlash c rate) bn jbc, ?_, ?_, ?_⟩
  · rw [hres]; exact lookupA_setA_self _ _ _
  · unfold punishJail
    rw [if_pos hjbc]
  · unfold punishJail
    rw [if_pos hjbc]
    rw [punishSlash_jailedUntilBlock]
    cases hj : c.jailedUntilBlock with
    | none => simp
    | some j =>
        by_cases hlt : bn < j
        · have hj0 : j ≠ 0 := by omega
          simp only [if_pos (And.intro hj0 hlt), if_pos hlt]
        · have hno : ¬ (j ≠ 0 ∧ bn < j) := fun h => hlt h.2
          simp only [if_neg hlt, if_neg hno, Option.some.injEq]
          omega

/-- Jailed sample candidate: jailed until block 120 while `punish` is
called at block 100, so 20 pending blocks remain. -/
def sampleJailedCand : Candidate :=
  { deposit := 1000, block := 3, operator := "op1", name := "V1",
    voters := [], jailed := true,
    jailedUntilBlock := some 120, slashed := 0 }

def sampleJailedCands : List (String × Candidate) := [("pk1", sampleJailedCand)]

theorem punish_jail_extends_witness :
    lookupA sampleJailedCands "pk1" = some sampleJailedCand ∧
    (0 : Int) < 7 ∧ (0 : Int) ≤ 100 ∧
    punish sampleJailedCands "pk1" 100 500000 7 =
      .ok (setA sampleJailedCands "pk1"
        (punishJail (punishSlash sampleJailedCand 500000) 100 7)) ∧
    (∃ c2, lookupA (setA sampleJailedCands "pk1"
        (punishJail (punishSlash sampleJailedCand 500000) 100 7)) "pk1" = some c2 ∧
      c2.jailed = true ∧
      c2.jailedUntilBlock = some
        (match sampleJailedCand.jailedUntilBlock with
          | some j => if 100 < j then 100 + (j - 100) + 7 else 100 + 7
          | none => 100 + 7)) :=
  ⟨rfl, by decide, by decide, rfl,
   punish_jail_extends sampleJailedCands "pk1" 100 500000 7 sampleJailedCand _
     rfl (by decide) (by decide) rfl⟩

/-! ## Claim theorems for `getValidators` (C7) and `resign` (C8) -/

theorem populateCapacity_true (l : List CandidateInfo) :
    _populateCapacity l true =
      List.insertionSort candNotAfter
        (l.map (fun c => { c with capacity := capacityOf c })) := rfl

/-- Claim C7: for every candidate set, `getValidators` returns at most
the configured maximum number of validators; the output is pairwise
ordered by capacity descending with ties broken by registration block
ascending; every returned capacity is the candidate's deposit plus the
sum of its voter contributions; and the output is a pure function of the
input (re-running on identical candidate data yields the identical
order). -/
theorem getValidators_bounded_sorted_pure (num : Nat)
    (cands : List (String × Candidate)) :
    (getValidatorsView num cands).length ≤ num ∧
    List.Pairwise
      (fun a b => b.capacity < a.capacity ∨
        (a.capacity = b.capacity ∧ a.block ≤ b.block))
      (getValidatorsView num cands) ∧
    (∀ c ∈ getValidatorsView num cands, c.capacity = capacityOf c) ∧
    (∀ cands2, cands2 = cands →
      getValidatorsView num cands2 = getValidatorsView num cands) := by
  refine ⟨?_, ?_, ?_, ?_⟩
  · unfold getValidatorsView _getValidators
    rw [List.length_take]
    exact min_le_left _ _
  · unfold getValidatorsView _getValidators
    rw [populateCapacity_true]
    have hsorted :
        List.Sorted candNotAfter
          (List.insertionSort candNotAfter
            ((getCandidatesView cands).map
              (fun c => { c with capacity := capacityOf c }))) :=
      List.sorted_insertionSort candNotAfter _
    have hpair := List.Pairwise.sublist (List.take_sublist num _) hsorted
    exact hpair.imp (fun h => (candNotAfter_iff _ _).mp h)
  · intro c hc
    unfold getValidatorsView _getValidators at hc
    rw [populateCapacity_true] at hc
    have hmem := (List.take_sublist num _).mem hc
    rw [List.mem_insertionSort] at hmem
    obtain ⟨c0, _, hc0⟩ := List.mem_map.mp hmem
    subst hc0
    simp [capacityOf]
  · intro cands2 h
    rw [h]

def c7cands : List (String × Candidate) :=
  [("a", { deposit := 10, block := 5, operator := "opA", name := "A",
           voters := [("v1", 20)], jailed := false,
           jailedUntilBlock := none, slashed := 0 }),
   ("b", { deposit := 40, block := 7, operator := "opB", name := "B",
           voters := [], jailed := false,
           jailedUntilBlock := none, slashed := 0 }),
   ("c", { deposit := 30, block := 2, operator := "opC", name := "C",
           voters := [], jailed := true,
           jailedUntilBlock := some 999, slashed := 0 })]

theorem getValidators_bounded_sorted_pure_witness :
    (getValidatorsView 2 c7cands).length ≤ 2 ∧
    getValidatorsView 2 c7cands = getValidatorsView 2 c7cands :=
  ⟨(getValidators_bounded_sorted_pure 2 c7cands).1,
   (getValidators_bounded_sorted_pure 2 c7cands).2.2.2 c7cands rfl⟩

/-- Context used for the `resign` evidence: one registered candidate with
one voter, an empty withdraw list, and the caller holding operator
permission. -/
def c8ctx : ElectionContext :=
  { candidates := sampleCands, withdraw := some [] }

/-- Claim C8 (counter-evidence, code bug): a permitted `resign` call on an
existing candidate never reaches the withdraw-list logic — the source
invokes `_rawWithdrawList()` without its context argument
(`part_000:164`), so the call throws a `TypeError` instead of moving the
stakes and removing the candidate. -/
theorem resign_throws_typeerror :
    resign c8ctx 100 (fun _ => true) "pk1" =
      .error "TypeError: Cannot read property getState of undefined" := by
  rfl

/-! ## Gate contract (`src/icetea/vm/index.js`, second unit) -/

/-- A registered gate provider (`registerProvider` stores at least the
deposit and the operator; the optional fields are irrelevant here). -/
structure Provider where
  deposit : Int
  operator : String
  deriving Repr, DecidableEq

/-- A pending off-chain request as stored by `request`
(`vm/index.js:259-263`): the path, the optional data and the options
object, whose `requester` field is always set to the calling
contract. -/
structure RequestData where
  path : String
  data? : Option String
  requester : String
  deriving Repr, DecidableEq

/-- A value stored in the gate contract's key/value state: per-caller
counters (under `<caller>_c`) and pending requests (under
`<caller>_<n>`). -/
inductive GateVal where
  | num (n : Int)
  | req (r : RequestData)
  deriving Repr, DecidableEq

/-- The gate contract's storage: the provider map stored under the
`prividers` key, and the counter/request key/value entries. -/
structure GateState where
  providers : List (String × Provider)
  kv : List (String × GateVal)
  deriving Repr, DecidableEq

/-- JS truthiness of a stored gate value (`if (!requestData)`),
`none` being `undefined`. -/
def truthyGateVal : Option GateVal → Bool
  | none => false
  | some (.num n) => n ≠ 0
  | some (.req _) => true

/-- `request(path, opts)` (`vm/index.js:246-281`).  `senderIsContract`
abstracts `getContractInfo(msg.sender, ...)`, which throws when the
caller is not a contract.  The returned string is the assigned request
id. -/
def requestFn (senderIsContract : Bool) (st : GateState) (sender : String)
    (path : String) (dat : Option String) :
    Except String (String × GateState) :=
  if ¬ senderIsContract then .error "This function must be called from a contract."
  else
    let numKey := sender ++ "_c"
    let lastNum : Int :=
      match lookupA st.kv numKey with
      | some (.num n) => n
      | _ => -1
    let currentNum := lastNum + 1
    let requestId := sender ++ "_" ++ toString currentNum
    let requestData : RequestData := { path := path, data? := dat, requester := sender }
    let kv := setA st.kv numKey (.num currentNum)
    let kv := setA kv requestId (.req requestData)
    .ok (requestId, { st with kv := kv })

/-- `setResult(requestId, result)` (`vm/index.js:288-307`).
`invokeCallback` abstracts
`loadContract(requestData.options.requester).onOffchainData.invokeUpdate`,
the recursive invocation of the requester contract; `deleteState` is
modelled from the spec ("then deletes the pending request record") since
the system-contract context implementation is not among the analysed
sources.  On success the result pairs the new state with the address of
the requester whose callback was invoked. -/
def setResultFn (invokeCallback : String → String → RequestData → Except String Unit)
    (st : GateState) (sender requestId : String) :
    Except String (GateState × String) :=
  if ¬ (lookupA st.providers sender).isSome then
    .error ("Provider not registered: " ++ sender ++ ".")
  else
    match lookupA st.kv requestId with
    | some (.req requestData) =>
        match invokeCallback requestData.requester requestId requestData with
        | .error e => .error e
        | .ok _ => .ok ({ st with kv := eraseA st.kv requestId }, requestData.requester)
    | some (.num n) =>
        if n = 0 then .error ("Request " ++ requestId ++ " no longer exists.")
        else .error "TypeError: Cannot read property requester of undefined"
    | none => .error ("Request " ++ requestId ++ " no longer exists.")

/-! ## Claim theorems for the gate contract (C9, C10) -/

/-- Claim C9: for every stored off-chain request, the first `setResult`
call by a registered provider invokes the requester's callback and
deletes the stored request record, and a second `setResult` call for the
same request id fails with the "no longer exists" error (at-most-once
delivery; a missing request is a hard error, not a no-op). -/
theorem setResult_at_most_once
    (invokeCallback : String → String → RequestData → Except String Unit)
    (st : GateState) (sender requestId : String) (r : RequestData)
    (hp : (lookupA st.providers sender).isSome = true)
    (hr : lookupA st.kv requestId = some (.req r))
    (hcb : invokeCallback r.requester requestId r = .ok ()) :
    ∃ st2, setResultFn invokeCallback st sender requestId =
        .ok (st2, r.requester) ∧
      lookupA st2.kv requestId = none ∧
      setResultFn invokeCallback st2 sender requestId =
        .error ("Request " ++ requestId ++ " no longer exists.") := by
  refine ⟨{ st with kv := eraseA st.kv requestId }, ?_, ?_, ?_⟩
  · unfold setResultFn
    rw [if_neg (by simp [hp]), hr]
    dsimp only
    rw [hcb]
  · exact lookupA_eraseA_self _ _
  · unfold setResultFn
    rw [if_neg (by simp [hp]), lookupA_eraseA_self]

def c9req : RequestData := { path := "price/btc", data? := none, requester := "ctr1" }

def c9state : GateState :=
  { providers := [("prov1", { deposit := 100, operator := "op1" })],
    kv := [("ctr1_c", .num 0), ("ctr1_0", .req c9req)] }

def c9callback : String → String → RequestData → Except String Unit :=
  fun _ _ _ => .ok ()

theorem setResult_at_most_once_witness :
    (lookupA c9state.providers "prov1").isSome = true ∧
    lookupA c9state.kv "ctr1_0" = some (.req c9req) ∧
    c9callback c9req.requester "ctr1_0" c9req = .ok () ∧
    (∃ st2, setResultFn c9callback c9state "prov1" "ctr1_0" =
        .ok (st2, c9req.requester) ∧
      lookupA st2.kv "ctr1_0" = none ∧
      setResultFn c9callback st2 "prov1" "ctr1_0" =
        .error ("Request " ++ "ctr1_0" ++ " no longer exists.")) :=
  ⟨rfl, rfl, rfl,
   setResult_at_most_once c9callback c9state "prov1" "ctr1_0" c9req rfl rfl rfl⟩

/-! Auxiliary facts: a per-caller counter key `<caller>_c` can never
collide with a request key `<caller>_<n>`, because the decimal rendering
of an integer never equals the string `"c"`. -/

theorem toDigitsCore_mem (f : Nat) : ∀ (n : Nat) (acc : List Char),
    ∀ ch ∈ Nat.toDigitsCore 10 f n acc,
      ch ∈ acc ∨ ∃ k, k < 10 ∧ ch = Nat.digitChar k := by
  induction f with
  | zero => intro n acc ch hch; exact Or.inl (by simpa [Nat.toDigitsCore] using hch)
  | succ f ih =>
      intro n acc ch hch
      simp only [Nat.toDigitsCore] at hch
      by_cases hz : n / 10 = 0
      · rw [if_pos hz] at hch
        rcases List.mem_cons.mp hch with h | h
        · exact Or.inr ⟨n % 10, Nat.mod_lt n (by norm_num), h⟩
        · exact Or.inl h
      · rw [if_neg hz] at hch
        rcases ih (n / 10) (Nat.digitChar (n % 10) :: acc) ch hch with h | h
        · rcases List.mem_cons.mp h with h2 | h2
          · exact Or.inr ⟨n % 10, Nat.mod_lt n (by norm_num), h2⟩
          · exact Or.inl h2
        · exact Or.inr h

theorem digitChar_ne_c : ∀ k, k < 10 → Nat.digitChar k ≠ 'c' := by decide

theorem natRepr_ne_c (n : Nat) : Nat.repr n ≠ "c" := by
  intro h
  have hd : (Nat.toDigits 10 n) = ['c'] := congrArg String.data h
  have hmem : 'c' ∈ Nat.toDigitsCore 10 (n + 1) n [] := by
    rw [show Nat.toDigitsCore 10 (n + 1) n [] = Nat.toDigits 10 n from rfl, hd]
    exact List.mem_singleton.mpr rfl
  rcases toDigitsCore_mem (n + 1) n [] 'c' hmem with h2 | ⟨k, hk, h2⟩
  · exact absurd h2 (List.not_mem_nil 'c')
  · exact digitChar_ne_c k hk h2.symm

theorem intToString_ne_c (m : Int) : toString m ≠ "c" := by
  cases m with
  | ofNat n => exact natRepr_ne_c n
  | negSucc n =>
      intro h
      have hd := congrArg String.data h
      rw [show toString (Int.negSucc n) = "-" ++ Nat.repr (n + 1) from rfl] at hd
      rw [String.data_append] at hd
      simp at hd

theorem numKey_ne_requestId (sender : String) (m : Int) :
    sender ++ "_c" ≠ sender ++ "_" ++ toString m := by
  intro h
  have hd := congrArg String.data h
  rw [String.data_append, String.data_append, String.data_append,
    List.append_assoc] at hd
  have h2 := List.append_cancel_left hd
  have h3 : (toString m).data = ['c'] := by
    simpa using h2.symm
  exact intToString_ne_c m (String.ext h3)

/-- State produced by a successful `request` that assigned counter value
`cur`: the counter key is overwritten and the request record stored. -/
def requestResultState (st : GateState) (sender path : String)
    (dat : Option String) (cur : Int) : GateState :=
  let requestData : RequestData := { path := path, data? := dat, requester := sender }
  let kv := setA st.kv (sender ++ "_c") (.num cur)
  let kv := setA kv (sender ++ "_" ++ toString cur) (.req requestData)
  { st with kv := kv }

/-- Claim C10: the gate `request` operation numbers each caller's requests
from 0 — with no stored counter the assigned id is `<caller>_0` and the
stored counter becomes 0, and with stored counter `n` the assigned id is
`<caller>_<n+1>` and the stored counter becomes `n + 1`, so consecutive
request ids of one caller carry consecutive counters. -/
theorem request_ids_consecutive (st : GateState) (sender path : String)
    (dat : Option String) :
    (lookupA st.kv (sender ++ "_c") = none →
      ∃ st2, requestFn true st sender path dat =
          .ok (sender ++ "_" ++ toString (0 : Int), st2) ∧
        lookupA st2.kv (sender ++ "_c") = some (.num 0)) ∧
    (∀ n : Int, lookupA st.kv (sender ++ "_c") = some (.num n) →
      ∃ st2, requestFn true st sender path dat =
          .ok (sender ++ "_" ++ toString (n + 1), st2) ∧
        lookupA st2.kv (sender ++ "_c") = some (.num (n + 1))) := by
  constructor
  · intro h
    refine ⟨requestResultState st sender path dat 0, ?_, ?_⟩
    · unfold requestFn
      rw [if_neg (by simp)]
      dsimp only
      rw [h]
      all_goals rfl
    · simp only [requestResultState]
      rw [lookupA_setA_ne _ _ _ _ (fun he => numKey_ne_requestId sender 0 he.symm)]
      exact lookupA_setA_self _ _ _
  · intro n h
    refine ⟨requestResultState st sender path dat (n + 1), ?_, ?_⟩
    · unfold requestFn
      rw [if_neg (by simp)]
      dsimp only
      rw [h]
      all_goals rfl
    · simp only [requestResultState]
      rw [lookupA_setA_ne _ _ _ _ (fun he => numKey_ne_requestId sender (n + 1) he.symm)]
      exact lookupA_setA_self _ _ _

def c10state : GateState := { providers := [], kv := [] }

theorem request_ids_consecutive_witness :
    lookupA c10state.kv ("ctr1" ++ "_c") = none ∧
    (∃ st2, requestFn true c10state "ctr1" "price/btc" none =
        .ok ("ctr1" ++ "_" ++ toString (0 : Int), st2) ∧
      lookupA st2.kv ("ctr1" ++ "_c") = some (.num 0)) :=
  ⟨rfl, (request_ids_consecutive c10state "ctr1" "price/btc" none).1 rfl⟩

/-! ## View-context message object (`src/icetea/vm/js/Context.js`) -/

/-- A JS value as observed when reading a property of the view-context
message object: either `undefined` or one of the four stored fields. -/
inductive JsValue where
  | undefinedVal
  | str (s : String)
  | strList (l : List String)
  deriving Repr, DecidableEq

/-- The proxy target built by `contextForView` (`Context.js:68`):
`{ name, params, sender, callType: 'view' }`. -/
structure ViewMsg where
  name : String
  params : List String
  sender : String
  deriving Repr, DecidableEq

/-- `Object.keys(msg)` inside the `get` trap (`Context.js:70`): the own
enumerable keys of the proxy target, in insertion order. -/
def viewMsgKeys : List String := ["name", "params", "sender", "callType"]

/-- The allow-list checked by the `get` trap (`Context.js:70`). -/
def viewMsgAllowedKeys : List String := ["name", "params", "callType", "sender"]

/-- `Reflect.get(target, prop)` on the proxy target (`Context.js:73`). -/
def viewMsgTargetGet (m : ViewMsg) (prop : String) : JsValue :=
  if prop = "name" then .str m.name
  else if prop = "params" then .strList m.params
  else if prop = "sender" then .str m.sender
  else if prop = "callType" then .str "view"
  else .undefinedVal

/-- The `get` trap of the view message proxy (`Context.js:69-74`): throw
when the property is among `Object.keys(msg)` but not in the allow-list,
otherwise forward to the target. -/
def viewMsgGet (m : ViewMsg) (prop : String) : Except String JsValue :=
  if viewMsgKeys.contains prop ∧ ¬ viewMsgAllowedKeys.contains prop then
    .error ("Cannot access msg." ++ prop ++ " when calling a @view function")
  else
    .ok (viewMsgTargetGet m prop)

/-- Claim C3 (counter-evidence, code bug): reading `msg.value`, `msg.fee`
or `msg.signers` in a view context yields `undefined` instead of failing
with an error — the trap's guard compares `Object.keys(msg)` (exactly the
four allowed keys of the proxy target) against the same four names, so
the `throw` at `Context.js:71` is unreachable and every property read
succeeds. -/
theorem viewMsg_forbidden_reads_yield_undefined (m : ViewMsg) :
    viewMsgGet m "value" = .ok .undefinedVal ∧
    viewMsgGet m "fee" = .ok .undefinedVal ∧
    viewMsgGet m "signers" = .ok .undefinedVal ∧
    (∀ prop, ∃ v, viewMsgGet m prop = .ok v) := by
  refine ⟨rfl, rfl, rfl, fun prop => ⟨viewMsgTargetGet m prop, ?_⟩⟩
  unfold viewMsgGet
  rw [if_neg]
  intro hcontra
  have hk := hcontra.1
  have hna := hcontra.2
  have : viewMsgAllowedKeys.contains prop = true := by
    rcases (by simpa [viewMsgKeys] using hk :
      prop = "name" ∨ prop = "params" ∨ prop = "sender" ∨ prop = "callType")
      with h | h | h | h <;>
      simp [viewMsgAllowedKeys, h]
  exact hna this

/-! ## Transaction pipeline (`src/icetea/app.js`) -/

/-- One account of the canonical state store. -/
structure Account where
  balance : Int
  isContract : Bool
  isSystem : Bool
  deriving Repr, DecidableEq

/-- The canonical address → account store. -/
abbrev Store := List (String × Account)

/-- `stateManager.balanceOf` — Modelled from the spec: accounts hold an
arbitrary-precision non-negative balance, absent accounts read as 0
(the state manager itself is not among the analysed sources). -/
def balanceOf (st : Store) (addr : String) : Int :=
  match lookupA st addr with
  | some a => a.balance
  | none => 0

/-- `stateManager.isContract(addr)` — Modelled from the spec: an address
is a contract when its account carries contract code. -/
def isContractAt (st : Store) (addr : Option String) : Bool :=
  match addr with
  | some a =>
      match lookupA st a with
      | some acc => acc.isContract
      | none => false
  | none => false

/-- `stateManager.isRegularContract(addr)` — Modelled from the spec: a
contract account whose mode is not system. -/
def isRegularContractAt (st : Store) (addr : Option String) : Bool :=
  match addr with
  | some a =>
      match lookupA st a with
      | some acc => acc.isContract && !acc.isSystem
      | none => false
  | none => false

/-- A transaction after wire decoding (`helper/abci.js:getTx`):
`fromAddr`/`toAddr` are `none` when the JS field is absent;
`isCreation`/`isCall` embed `tx.isContractCreation()` /
`tx.isContractCall()`; `dataName` is `tx.data.name` (empty when
absent). -/
structure Tx where
  fromAddr : Option String
  toAddr : Option String
  value : Int
  fee : Int
  signers : List String
  dataName : String
  isCreation : Bool
  isCall : Bool
  deriving Repr, DecidableEq

/-- The current block context set by `beginBlock`. -/
structure Block where
  number : Int
  timestamp : Int
  hash : String
  deriving Repr, DecidableEq

/-- An invocation result: the returned data slot, the emitted tags and
the optional reported resource usage (`result.__gas_used`). -/
structure InvokeResult where
  retData : Option String
  tags : List (String × String)
  gasUsed : Option Int
  deriving Repr, DecidableEq

/-- External collaborators of the pipeline, all outside the analysed
sources.  `sigOk` models `verifyTxSignature`; `ensureAddress` the alias
system contract; `validAddress` `ecc.validateAddress`; `permissionOk`
`did.checkPermission`; `prepareContract` `invoker.prepareContract` (the
staged contract account); `newContractAddress` the address assigned by
`tools.deployContract`; `invokeUpdate`/`invokeTx` the contract invoker
running against the draft store. -/
structure Env where
  sigOk : Tx → Bool
  ensureAddress : String → String
  validAddress : String → Bool
  permissionOk : String → List String → Bool
  prepareContract : Tx → Except String Account
  newContractAddress : String
  invokeUpdate : String → String → Tx → Store → Except String (InvokeResult × Store)
  invokeTx : Tx → Store → Except String (InvokeResult × Store)

/-- JS `String.prototype.includes('.')`, embedded over the character
list so that concrete witnesses evaluate inside the kernel. -/
def containsChar (s : String) (c : Char) : Bool := s.data.contains c

/-- JS `String.prototype.startsWith`, embedded over the character
list. -/
def startsWithA (s p : String) : Bool := p.data.isPrefixOf s.data

/-- Destination handling of `checkTx` (`app.js:86-99`): resolve aliases
(only for dotted destinations), accept only aliases that begin with
`system.` and remain dotted, validate plain addresses, and require a
destination
unless the transaction is a contract creation. -/
def resolveDestination (env : Env) (tx : Tx) : Except String Tx :=
  match tx.toAddr with
  | some dest =>
      let dest := if containsChar dest '.' then env.ensureAddress dest else dest
      if containsChar dest '.' then
        if startsWithA dest "system." then .ok { tx with toAddr := some dest }
        else .error ("Invalid destination alias " ++ dest)
      else
        if env.validAddress dest then .ok { tx with toAddr := some dest }
        else .error ("Invalid address " ++ dest)
  | none =>
      if tx.isCreation then .ok tx
      else .error "Transaction destination address is required."

/-- The effective sender: `tx.from = tx.from || tx.signers[0]`
(`app.js:112`). -/
def effectiveSender (tx : Tx) : String :=
  tx.fromAddr.getD (tx.signers.headD "")

/-- `checkTx` (`app.js:79-118`): signature, destination, signer-set and
permission checks followed by the balance check
`tx.value + tx.fee > stateManager.balanceOf(tx.from)`. -/
def checkTx (env : Env) (st : Store) (tx : Tx) : Except String Tx :=
  if ¬ env.sigOk tx then .error "Invalid transaction signature" else
  match resolveDestination env tx with
  | .error e => .error e
  | .ok tx1 =>
    if tx1.signers.length = 0 then
      .error "Must have at lease one signature."
    else if tx1.signers.length = 1 ∧ tx1.fromAddr = some (tx1.signers.headD "") then
      .error "No need to set 'from' to save blockchain data size."
    else if 1 < tx1.signers.length ∧ tx1.fromAddr = none then
      .error "Must explicitly set 'from' when there are more than 1 signer."
    else
      let sender := effectiveSender tx1
      let tx2 := { tx1 with fromAddr := some sender }
      if ¬ env.permissionOk sender tx2.signers then
        .error "Permission check failed."
      else if balanceOf st sender < tx2.value + tx2.fee then
        .error "Not enough balance"
      else .ok tx2

/-- `willCallContract` (`app.js:205-207`). -/
def willCallContract (st : Store) (tx : Tx) : Bool :=
  tx.isCreation || tx.isCall || (decide (0 < tx.value) && isContractAt st tx.toAddr)

/-- Credit `delta` to an account, creating it on first credit — Modelled
from the spec ("created on first credit"). -/
def creditBalance (st : Store) (addr : String) (delta : Int) : Store :=
  match lookupA st addr with
  | some acc => setA st addr { acc with balance := acc.balance + delta }
  | none => setA st addr { balance := delta, isContract := false, isSystem := false }

/-- `stateManager.handleTransfer` / `tools.refectTxValueAndFee` —
Modelled from the spec ("perform the value/fee transfer"): debit the
sender by `value + fee` and credit the destination by `value` (the state
manager is not among the analysed sources). -/
def handleTransfer (st : Store) (sender : String) (toAddr : Option String)
    (value fee : Int) : Store :=
  let st := creditBalance st sender (-(value + fee))
  match toAddr with
  | some dest => creditBalance st dest value
  | none => st

/-- Method names rejected for direct calls (`app.js:240`). -/
def reservedMethods : List String :=
  ["constructor", "__on_received", "__on_deployed", "getState", "setState", "getEnv"]

/-- Tag value of the merged `Transferred` event — Modelled from the spec
(`emitTransferred` in `helper/utils` is not among the analysed
sources). -/
def transferTag (tx : Tx) : String × String :=
  ("Transferred", (tx.fromAddr.getD "") ++ ">" ++ (tx.toAddr.getD "") ++ ":" ++ toString tx.value)

/-- `doExecTx` (`app.js:216-269`): contract staging and destination
rewrite for creations, the value/fee transfer, the constructor /
invocation / `__on_received` dispatch, the gas refund, and the merged
`Transferred` event.  The store argument is the draft when the caller
produced one (`hasTools = true`), the canonical store otherwise. -/
def doExecTx (env : Env) (tx : Tx) (st : Store) (hasTools : Bool) :
    Except String (Option InvokeResult × Store) :=
  let staged : Except String (Tx × Store) :=
    if tx.isCreation then
      match env.prepareContract tx with
      | .error e => .error e
      | .ok contractAcc =>
          .ok ({ tx with toAddr := some env.newContractAddress },
               setA st env.newContractAddress contractAcc)
    else .ok (tx, st)
  match staged with
  | .error e => .error e
  | .ok (tx, st) =>
    let st := handleTransfer st (tx.fromAddr.getD "") tx.toAddr tx.value tx.fee
    let invoked : Except String (Option InvokeResult × Store) :=
      if tx.isCreation then
        match env.invokeUpdate (tx.toAddr.getD "") "__on_deployed" tx st with
        | .error e => .error e
        | .ok (r, st) => .ok (some { r with retData := tx.toAddr }, st)
      else if tx.isCall then
        if reservedMethods.contains tx.dataName then
          .error "Calling this method directly is not allowed"
        else
          match env.invokeTx tx st with
          | .error e => .error e
          | .ok (r, st) => .ok (some r, st)
      else .ok (none, st)
    match invoked with
    | .error e => .error e
    | .ok (result, st) =>
      let received : Except String (Option InvokeResult × Store) :=
        if tx.value ≠ 0 ∧ isRegularContractAt st tx.toAddr ∧
            ¬ tx.isCreation ∧ ¬ tx.isCall then
          match env.invokeUpdate (tx.toAddr.getD "") "__on_received" tx st with
          | .error e => .error e
          | .ok (r, st) => .ok (some r, st)
        else .ok (result, st)
      match received with
      | .error e => .error e
      | .ok (result, st) =>
        let refunded : Option InvokeResult × Store :=
          match result with
          | some r =>
              match r.gasUsed with
              | some g =>
                  if g ≠ 0 ∧ hasTools then
                    (some { r with gasUsed := none },
                     creditBalance st (tx.fromAddr.getD "") (tx.fee - g))
                  else (some r, st)
              | none => (result, st)
          | none => (result, st)
        let result := refunded.1
        let st := refunded.2
        let result :=
          if 0 < tx.value then
            match result with
            | some r => some { r with tags := r.tags ++ [transferTag tx] }
            | none => some { retData := none, tags := [transferTag tx], gasUsed := none }
          else result
        .ok (result, st)

/-- Checkpoint observer events (`stateManager.beginCheckpoint` /
`endCheckpoint` drive the `beforeTx`/`afterTx` hooks registered through
`addStateObserver`, `app.js:74-77`). -/
inductive CkptEvent where
  | beginCkpt
  | endCkpt
  deriving Repr, DecidableEq

/-- The pipeline-visible chain state: the canonical store, the current
block and the recorded checkpoint events. -/
structure ChainState where
  store : Store
  blk : Block
  ckptLog : List CkptEvent
  deriving Repr, DecidableEq

/-- `execTx` (`app.js:168-195`): `checkTx`, `beginCheckpoint`, an
optional draft (`produceDraft` when `willCallContract`), `doExecTx`,
`applyDraft` and `endCheckpoint`.  There is no `try`/`finally` in the
source: when `doExecTx` throws, neither `applyDraft` nor `endCheckpoint`
runs and the exception propagates to the caller (`deliverTx` catches it
without closing the checkpoint). -/
def execTx (env : Env) (cs : ChainState) (tx : Tx) :
    Except String (Option InvokeResult) × ChainState :=
  match checkTx env cs.store tx with
  | .error e => (.error e, cs)
  | .ok tx1 =>
    let cs1 : ChainState := { cs with ckptLog := cs.ckptLog ++ [CkptEvent.beginCkpt] }
    let needState := willCallContract cs1.store tx1
    match doExecTx env tx1 cs1.store needState with
    | .error e => (.error e, cs1)
    | .ok (result, st2) =>
      let cs2 : ChainState := { cs1 with store := st2 }
      let cs3 : ChainState := { cs2 with ckptLog := cs2.ckptLog ++ [CkptEvent.endCkpt] }
      (.ok result, cs3)

/-! ## Claim theorems for the pipeline (C1, C2) -/

theorem resolveDestination_fields (env : Env) (tx tx1 : Tx)
    (h : resolveDestination env tx = .ok tx1) :
    tx1.fromAddr = tx.fromAddr ∧ tx1.signers = tx.signers ∧
    tx1.value = tx.value ∧ tx1.fee = tx.fee := by
  unfold resolveDestination at h
  cases htx : tx.toAddr with
  | some dest =>
      rw [htx] at h
      dsimp only at h
      generalize (if containsChar dest '.' = true then env.ensureAddress dest else dest) = d2 at h
      split at h
      · split at h
        · injection h with h2
          subst h2
          exact ⟨rfl, rfl, rfl, rfl⟩
        · exact Except.noConfusion h
      · split at h
        · injection h with h2
          subst h2
          exact ⟨rfl, rfl, rfl, rfl⟩
        · exact Except.noConfusion h
  | none =>
      rw [htx] at h
      dsimp only at h
      split at h
      · injection h with h2
        subst h2
        exact ⟨rfl, rfl, rfl, rfl⟩
      · exact Except.noConfusion h

theorem checkTx_insufficient_balance (env : Env) (st : Store) (tx : Tx)
    (h : balanceOf st (effectiveSender tx) < tx.value + tx.fee) :
    ∃ e, checkTx env st tx = .error e := by
  unfold checkTx
  split
  · exact ⟨_, rfl⟩
  · cases hres : resolveDestination env tx with
    | error e => exact ⟨e, rfl⟩
    | ok tx1 =>
        obtain ⟨hf, hs, hv, hfee⟩ := resolveDestination_fields env tx tx1 hres
        have hsend : effectiveSender tx1 = effectiveSender tx := by
          unfold effectiveSender
          rw [hf, hs]
        dsimp only
        split
        · exact ⟨_, rfl⟩
        · split
          · exact ⟨_, rfl⟩
          · split
            · exact ⟨_, rfl⟩
            · split
              · exact ⟨_, rfl⟩
              · split
                · exact ⟨_, rfl⟩
                · rename_i hbal
                  exfalso
                  rw [hsend, hv, hfee] at hbal
                  exact hbal h

/-- Claim C1: for every transaction whose value plus fee exceeds the
sender's balance, `execTx` returns a rejection and leaves the canonical
state (store, block and checkpoint log) byte-identical to its pre-call
state: the insufficient-balance check inside `checkTx` throws before
`beginCheckpoint` runs. -/
theorem execTx_insufficient_balance (env : Env) (cs : ChainState) (tx : Tx)
    (h : balanceOf cs.store (effectiveSender tx) < tx.value + tx.fee) :
    ∃ e, execTx env cs tx = (.error e, cs) := by
  obtain ⟨e, he⟩ := checkTx_insufficient_balance env cs.store tx h
  exact ⟨e, by unfold execTx; rw [he]⟩

/-- Environment used by the concrete pipeline witnesses: every external
check passes and the invoker returns an empty result. -/
def envW : Env :=
  { sigOk := fun _ => true
    ensureAddress := fun s => s
    validAddress := fun _ => true
    permissionOk := fun _ _ => true
    prepareContract := fun _ => .error "unused"
    newContractAddress := "newct"
    invokeUpdate := fun _ _ _ st => .ok ({ retData := none, tags := [], gasUsed := none }, st)
    invokeTx := fun _ st => .ok ({ retData := none, tags := [], gasUsed := none }, st) }

def storeW : Store :=
  [("alice", { balance := 100, isContract := false, isSystem := false }),
   ("ctr", { balance := 0, isContract := true, isSystem := false })]

def csW : ChainState :=
  { store := storeW, blk := { number := 1, timestamp := 0, hash := "h" }, ckptLog := [] }

/-- A transfer of 200 from an account holding 100. -/
def txPoor : Tx :=
  { fromAddr := none, toAddr := some "bob", value := 200, fee := 0,
    signers := ["alice"], dataName := "", isCreation := false, isCall := false }

theorem execTx_insufficient_balance_witness :
    balanceOf csW.store (effectiveSender txPoor) < txPoor.value + txPoor.fee ∧
    ∃ e, execTx envW csW txPoor = (.error e, csW) :=
  ⟨by decide, execTx_insufficient_balance envW csW txPoor (by decide)⟩

/-- A direct call to the reserved method name `getState`: it passes
`checkTx` but `doExecTx` throws at `app.js:240-242`. -/
def txReserved : Tx :=
  { fromAddr := none, toAddr := some "ctr", value := 0, fee := 0,
    signers := ["alice"], dataName := "getState", isCreation := false, isCall := true }

/-- Claim C2 (counter-evidence): a transaction that fails after
`beginCheckpoint` leaves the canonical store untouched, but
`endCheckpoint` is NOT invoked — the checkpoint log records the `begin`
event with no matching `end`, so the before/after observer hooks do not
fire symmetrically. -/
theorem execTx_failure_skips_endCheckpoint :
    (execTx envW csW txReserved).1 =
      .error "Calling this method directly is not allowed" ∧
    (execTx envW csW txReserved).2.store = csW.store ∧
    (execTx envW csW txReserved).2.ckptLog.count CkptEvent.beginCkpt = 1 ∧
    (execTx envW csW txReserved).2.ckptLog.count CkptEvent.endCkpt = 0 := by
  exact ⟨rfl, rfl, by decide, by decide⟩

/-- Claim C2 (amended): `beginCheckpoint` always runs after a successful
`checkTx`; on success `applyDraft` and `endCheckpoint` both run, while on
any `doExecTx` failure the draft is not applied (the canonical store is
unchanged) and `endCheckpoint` is skipped — `begin`/`end` pair 1:1 only
on the success path. -/
theorem execTx_checkpoint_pairing (env : Env) (cs : ChainState) (tx tx1 : Tx)
    (hck : checkTx env cs.store tx = .ok tx1) :
    (∀ e, doExecTx env tx1 cs.store (willCallContract cs.store tx1) = .error e →
      execTx env cs tx =
        (.error e, { cs with ckptLog := cs.ckptLog ++ [CkptEvent.beginCkpt] })) ∧
    (∀ r st2, doExecTx env tx1 cs.store (willCallContract cs.store tx1) = .ok (r, st2) →
      execTx env cs tx =
        (.ok r, { store := st2, blk := cs.blk,
                  ckptLog := cs.ckptLog ++ [CkptEvent.beginCkpt, CkptEvent.endCkpt] })) := by
  constructor
  · intro e hdo
    unfold execTx
    rw [hck]
    dsimp only
    rw [hdo]
  · intro r st2 hdo
    unfold execTx
    rw [hck]
    dsimp only
    rw [hdo]
    simp [List.append_assoc]

/-- A plain transfer of 5 with fee 1 from `alice` to the fresh account
`bob` (no contract involved, so `doExecTx` succeeds with the merged
`Transferred` event as its only output). -/
def txPlain : Tx :=
  { fromAddr := none, toAddr := some "bob", value := 5, fee := 1,
    signers := ["alice"], dataName := "", isCreation := false, isCall := false }

def txPlain1 : Tx := { txPlain with fromAddr := some "alice" }

def resPlain : InvokeResult :=
  { retData := none, tags := [transferTag txPlain1], gasUsed := none }

def storePlain2 : Store :=
  [("alice", { balance := 94, isContract := false, isSystem := false }),
   ("ctr", { balance := 0, isContract := true, isSystem := false }),
   ("bob", { balance := 5, isContract := false, isSystem := false })]

theorem execTx_checkpoint_pairing_witness :
    checkTx envW csW.store txPlain = .ok txPlain1 ∧
    doExecTx envW txPlain1 csW.store (willCallContract csW.store txPlain1) =
      .ok (some resPlain, storePlain2) ∧
    execTx envW csW txPlain =
      (.ok (some resPlain),
       { store := storePlain2, blk := csW.blk,
         ckptLog := [CkptEvent.beginCkpt, CkptEvent.endCkpt] }) :=
  ⟨rfl, rfl,
   (execTx_checkpoint_pairing envW csW txPlain txPlain1 rfl).2 (some resPlain)
     storePlain2 rfl⟩

end Icetea
